import Mathlib

/-!
Verification of the AMT worker monitor against its specification.

Shallow embedding of `mt_worker_monitor.py` and `utils.py`.  The marketplace
API is modelled by the sequence of responses the server would return: the
i-th call of a paginated listing receives the i-th response of the list.
Dictionary key presence (`NEXT_TOKEN not in resp`) is modelled by an
`Option` field.  A raised Python exception is modelled by `none` in an
`Option`-valued result.
-/

namespace AMTMonitor

/-- A HIT record: its id together with the free-text `RequesterAnnotation`
field that embeds the batch identifier. -/
structure Hit where
  hitId : String
  requesterAnn : String
  deriving DecidableEq

/-- One response of the paginated `list_hits` operation: the `HITs` field and
the optional `NextToken` field. -/
structure HitsResp where
  hits : List Hit
  nextToken : Option String
  deriving DecidableEq

/-- One record of `list_workers_with_qualification_type`: carries the
`WorkerId`. -/
structure Qualification where
  workerId : String
  deriving DecidableEq

/-- One response of the paginated `list_workers_with_qualification_type`
operation: the `Qualifications` field and the optional `NextToken` field. -/
structure QualResp where
  qualifications : List Qualification
  nextToken : Option String
  deriving DecidableEq

/-- Maximal leading run of decimal digits: the greedy `\d+` of the regex. -/
def leadingDigits : List Char → List Char
  | [] => []
  | c :: cs => if c.isDigit then c :: leadingDigits cs else []

/-- Value denoted by a run of digit characters (Python `int` on the digit
substring). -/
def digitsToNat (ds : List Char) : Nat :=
  ds.foldl (fun a c => 10 * a + (c.toNat - 48)) 0

/-- Does `BatchId:\d+` match starting at the head of the character list?
Returns the greedy digit run following the literal `BatchId:`. -/
def matchBatchIdAt : List Char → Option (List Char)
  | 'B' :: 'a' :: 't' :: 'c' :: 'h' :: 'I' :: 'd' :: ':' :: cs =>
      match leadingDigits cs with
      | [] => none
      | d :: ds => some (d :: ds)
  | _ => none

/-- `re.search(r'BatchId:\d+', s)`: the leftmost position where the pattern
matches, with a greedy digit run; `none` when the pattern occurs nowhere. -/
def searchBatchId : List Char → Option (List Char)
  | [] => none
  | c :: cs =>
      match matchBatchIdAt (c :: cs) with
      | some ds => some ds
      | none => searchBatchId cs

/-- `utils.batch_id_match`: extract the leftmost `BatchId:<digits>` substring
of the annotation, parse the digits, compare with the target batch id.
`none` models the `AttributeError` raised when `re.search` returns `None`
(the pattern is absent). -/
def batch_id_match (hit : Hit) (batch_id : Int) : Option Bool :=
  match searchBatchId hit.requesterAnn.data with
  | none => none
  | some ds => some (decide ((digitsToNat ds : Int) = batch_id))

/-- The list comprehension `[hit for hit in hits if batch_id_match(hit,
self.batch_id)]`: keeps the hits whose annotation carries the target batch
id; `none` when `batch_id_match` raises for some hit of the page. -/
def filterBatch (batch_id : Int) : List Hit → Option (List Hit)
  | [] => some []
  | h :: hs =>
      match batch_id_match h batch_id with
      | none => none
      | some b =>
          match filterBatch batch_id hs with
          | none => none
          | some rest => some (if b then h :: rest else rest)

/-- `MTWorkerMonitor.fetch_and_filter_hits` run against a stream of
`list_hits` responses.  Faithful to the loop: the `NextToken` check comes
BEFORE the page's hits are accumulated, so a response without a `NextToken`
has its hits discarded.  The `[]` case (the loop asks for a response the
stream does not contain) cannot arise for a well-formed paginated stream. -/
def fetch_and_filter_hits (batch_id : Int) : List HitsResp → Option (List Hit)
  | [] => some []
  | r :: rs =>
      match r.nextToken with
      | none => some []
      | some _ =>
          match filterBatch batch_id r.hits with
          | none => none
          | some page =>
              match fetch_and_filter_hits batch_id rs with
              | none => none
              | some rest => some (page ++ rest)

/-- `MTWorkerMonitor.fetch_workers_with_qualification` run against a stream
of `list_workers_with_qualification_type` responses (Status=Granted is part
of the request; the server already restricts to granted records).  As in the
hits fetcher, the `NextToken` check precedes accumulation. -/
def fetch_workers_with_qualification : List QualResp → List String
  | [] => []
  | r :: rs =>
      match r.nextToken with
      | none => []
      | some _ =>
          r.qualifications.map (fun q => q.workerId) ++
            fetch_workers_with_qualification rs

/-- Specification-side description: the concatenation, in page order, of the
filtered-in hits of the given pages (the spec's "concatenation across all
pages, in page order"). -/
def filteredPages (batch_id : Int) : List HitsResp → Option (List Hit)
  | [] => some []
  | r :: rs =>
      match filterBatch batch_id r.hits with
      | none => none
      | some page =>
          match filteredPages batch_id rs with
          | none => none
          | some rest => some (page ++ rest)

/-- Specification-side description: the worker ids of the given pages,
concatenated in page order. -/
def workersOfPages : List QualResp → List String
  | [] => []
  | r :: rs =>
      r.qualifications.map (fun q => q.workerId) ++ workersOfPages rs

/-- A well-formed paginated response stream for `list_hits`: every response
carries a continuation token except the last one. -/
def paginatedHits : List HitsResp → Bool
  | [] => false
  | [r] => r.nextToken.isNone
  | r :: rs => r.nextToken.isSome && paginatedHits rs

/-- A well-formed paginated response stream for
`list_workers_with_qualification_type`. -/
def paginatedQuals : List QualResp → Bool
  | [] => false
  | [r] => r.nextToken.isNone
  | r :: rs => r.nextToken.isSome && paginatedQuals rs

/-- In-cycle state of the tally phase of `MTWorkerMonitor.run`:
`worker_counter` (a `Counter`, i.e. a map defaulting to 0), the
`blacklisted_workers` set (membership is all that matters, so a list), and
the sequence of `associate_qualification_with_worker` calls issued so far,
in call order. -/
structure CycleState where
  counter : String → Nat
  blacklisted : List String
  grants : List String

/-- The body of the inner assignment loop of `MTWorkerMonitor.run`:
increment the worker's count, then, if the incremented count is `>=
max_hits` and the worker is not blacklisted, add the worker to the local
blacklist and issue the qualification grant. -/
def stepAssignment (max_hits : Int) (st : CycleState) (worker_id : String) :
    CycleState :=
  if (st.counter worker_id + 1 : Int) ≥ max_hits ∧
      worker_id ∉ st.blacklisted then
    ⟨fun w => if w = worker_id then st.counter worker_id + 1 else st.counter w,
      worker_id :: st.blacklisted, st.grants ++ [worker_id]⟩
  else
    ⟨fun w => if w = worker_id then st.counter worker_id + 1 else st.counter w,
      st.blacklisted, st.grants⟩

/-- State at the start of a tally phase: empty `Counter`, blacklist as
fetched at cycle start, no grant calls issued yet. -/
def initState (blacklisted0 : List String) : CycleState :=
  ⟨fun _ => 0, blacklisted0, []⟩

/-- The tally phase of one cycle of `MTWorkerMonitor.run`: for each hit, for
each assignment returned by `list_assignments_for_hit` with statuses
Submitted/Approved (the API filters by status; `assignmentsOf h` is the
worker-id list of that already-filtered response), run `stepAssignment`. -/
def runTally (max_hits : Int) (hits : List Hit)
    (assignmentsOf : Hit → List String) (blacklisted0 : List String) :
    CycleState :=
  hits.foldl (fun st h => (assignmentsOf h).foldl (stepAssignment max_hits) st)
    (initState blacklisted0)

/-- Observable outcome of one loop iteration: whether the empty-batch
warning was emitted, and the grant calls issued, in order. -/
structure CycleResult where
  warned : Bool
  grants : List String
  deriving DecidableEq

/-- One iteration of the `while True` loop of `MTWorkerMonitor.run`:
re-fetch the blacklist, fetch and filter the hits (`none` when that step
raises), warn when no hits were found, then run the tally phase.  A `some`
result means the iteration completed and the loop proceeds to sleep. -/
def runCycle (max_hits batch_id : Int) (hitPages : List HitsResp)
    (qualPages : List QualResp) (assignmentsOf : Hit → List String) :
    Option CycleResult :=
  let blacklisted := fetch_workers_with_qualification qualPages
  match fetch_and_filter_hits batch_id hitPages with
  | none => none
  | some hits =>
      some ⟨hits.isEmpty,
            (runTally max_hits hits assignmentsOf blacklisted).grants⟩

/-- The marketplace state visible to one credential-listing call: the
response streams the server would serve. -/
structure MarketState where
  hitPages : List HitsResp
  qualPages : List QualResp

/-- The spec's `list_disqualified_workers`: `fetch_workers_with_qualification`
as a read-only operation on the marketplace state — it issues list calls
only, so the state it leaves behind is the state it was given. -/
def list_disqualified_workers (s : MarketState) : List String × MarketState :=
  (fetch_workers_with_qualification s.qualPages, s)

/-- The configuration record stored by `MTWorkerMonitor.__init__` (the boto3
client construction is external). -/
structure MTWorkerMonitor where
  max_hits : Int
  batch_id : Int
  aws_access_key_id : String
  aws_secret_access_key : String
  mturk_endpoint_url : String
  blacklist_qualification_id : String
  sleep_time : Int

/-- `MTWorkerMonitor.__init__`: stores every argument unchanged; in
particular `max_hits` is stored without any validation. -/
def MTWorkerMonitor.init (max_hits batch_id : Int)
    (aws_access_key_id aws_secret_access_key : String)
    (mturk_endpoint_url blacklist_qualification_id : String)
    (sleep_time : Int) : MTWorkerMonitor :=
  ⟨max_hits, batch_id, aws_access_key_id, aws_secret_access_key,
    mturk_endpoint_url, blacklist_qualification_id, sleep_time⟩

/-- Invariant of the tally phase, relative to the blacklist `bl0` fetched at
cycle start: the grant calls issued so far are pairwise distinct, every
granted worker is in the current blacklist, the current blacklist extends
`bl0`, and no worker of `bl0` has been granted. -/
def TallyInv (bl0 : List String) (st : CycleState) : Prop :=
  st.grants.Nodup ∧ (∀ w ∈ st.grants, w ∈ st.blacklisted) ∧
    (∀ w ∈ bl0, w ∈ st.blacklisted) ∧ ∀ w ∈ bl0, w ∉ st.grants

/-- Concrete fixtures used by counterexamples and witnesses. -/
def hitA : Hit := ⟨"T1", "BatchId:42"⟩

def hitB : Hit := ⟨"T2", "BatchId:42"⟩

def pages42 : List HitsResp := [⟨[hitA], some "tok1"⟩, ⟨[hitB], none⟩]

def qualW1 : Qualification := ⟨"W1"⟩

def qualW2 : Qualification := ⟨"W2"⟩

def qpagesW : List QualResp := [⟨[qualW1], some "tok1"⟩, ⟨[qualW2], none⟩]

def hitBad : Hit := ⟨"T9", "no batch token"⟩

/-- Pagination unrolling for the hits fetcher: while every response carries
a token, pages accumulate; the first tokenless response stops the loop with
that response's hits discarded, whatever follows it in the stream. -/
lemma fetch_hits_upto_break (b : Int) (ps : List HitsResp)
    (hps : ∀ p ∈ ps, p.nextToken.isSome = true) (r : HitsResp)
    (hr : r.nextToken = none) (rest : List HitsResp) :
    fetch_and_filter_hits b (ps ++ r :: rest) = filteredPages b ps := by
  induction ps with
  | nil =>
      simp only [List.nil_append, fetch_and_filter_hits, hr, filteredPages]
  | cons p ps ih =>
      have hp : p.nextToken.isSome = true := hps p (List.mem_cons_self p ps)
      obtain ⟨t, ht⟩ := Option.isSome_iff_exists.mp hp
      have ih' := ih (fun q hq => hps q (List.mem_cons_of_mem p hq))
      simp only [List.cons_append, fetch_and_filter_hits, ht, filteredPages,
        List.append_eq, ih']

/-- Pagination unrolling for the worker fetcher, same shape. -/
lemma fetch_workers_upto_break (ps : List QualResp)
    (hps : ∀ p ∈ ps, p.nextToken.isSome = true) (r : QualResp)
    (hr : r.nextToken = none) (rest : List QualResp) :
    fetch_workers_with_qualification (ps ++ r :: rest) = workersOfPages ps := by
  induction ps with
  | nil =>
      simp only [List.nil_append, fetch_workers_with_qualification, hr,
        workersOfPages]
  | cons p ps ih =>
      have hp : p.nextToken.isSome = true := hps p (List.mem_cons_self p ps)
      obtain ⟨t, ht⟩ := Option.isSome_iff_exists.mp hp
      have ih' := ih (fun q hq => hps q (List.mem_cons_of_mem p hq))
      simp only [List.cons_append, fetch_workers_with_qualification, ht,
        workersOfPages, List.append_eq, ih']

/-- A page containing a hit on which `batch_id_match` raises makes the whole
page comprehension raise. -/
lemma filterBatch_eq_none (b : Int) (hit : Hit) (hs : List Hit)
    (hmem : hit ∈ hs) (hbad : batch_id_match hit b = none) :
    filterBatch b hs = none := by
  induction hs with
  | nil => cases hmem
  | cons h t ih =>
      rcases List.mem_cons.mp hmem with heq | hmem'
      · subst heq
        simp only [filterBatch, hbad]
      · unfold filterBatch
        rcases hcase : batch_id_match h b with _ | bv
        · rfl
        · rw [ih hmem']

/-- One assignment step preserves the tally invariant. -/
lemma tallyInv_step (m : Int) (bl0 : List String) (st : CycleState)
    (w : String) (h : TallyInv bl0 st) :
    TallyInv bl0 (stepAssignment m st w) := by
  obtain ⟨h1, h2, h3, h4⟩ := h
  unfold stepAssignment
  by_cases hc : ((st.counter w + 1 : Int) ≥ m ∧ w ∉ st.blacklisted)
  · rw [if_pos hc]
    have hwg : w ∉ st.grants := fun hw => hc.2 (h2 w hw)
    refine ⟨?_, ?_, ?_, ?_⟩
    · simpa [List.nodup_append] using ⟨h1, hwg⟩
    · intro x hx
      rcases List.mem_append.mp hx with hx' | hx'
      · exact List.mem_cons_of_mem _ (h2 x hx')
      · rcases List.mem_singleton.mp hx' with rfl
        exact List.mem_cons_self _ _
    · exact fun x hx => List.mem_cons_of_mem _ (h3 x hx)
    · intro x hx hmem
      rcases List.mem_append.mp hmem with hx' | hx'
      · exact h4 x hx hx'
      · rcases List.mem_singleton.mp hx' with rfl
        exact hc.2 (h3 x hx)
  · rw [if_neg hc]
    exact ⟨h1, h2, h3, h4⟩

/-- A fold of assignment steps preserves the tally invariant. -/
lemma tallyInv_foldl (m : Int) (bl0 : List String) (ws : List String)
    (st : CycleState) (h : TallyInv bl0 st) :
    TallyInv bl0 (ws.foldl (stepAssignment m) st) := by
  induction ws generalizing st with
  | nil => exact h
  | cons w ws ih => exact ih _ (tallyInv_step m bl0 st w h)

/-- The whole tally phase satisfies the invariant. -/
lemma tallyInv_runTally (m : Int) (hits : List Hit)
    (aof : Hit → List String) (bl0 : List String) :
    TallyInv bl0 (runTally m hits aof bl0) := by
  have hinit : TallyInv bl0 (initState bl0) := by
    simp [TallyInv, initState]
  unfold runTally
  generalize initState bl0 = st at hinit ⊢
  induction hits generalizing st with
  | nil => exact hinit
  | cons hit hits ih => exact ih _ (tallyInv_foldl m bl0 (aof hit) st hinit)

/-- Unrolling of `fetch_and_filter_hits` on a response that carries a
continuation token. -/
lemma fetch_cons_some_token (b : Int) (page : List Hit) (tok : String)
    (rs : List HitsResp) :
    fetch_and_filter_hits b (⟨page, some tok⟩ :: rs) =
      match filterBatch b page with
      | none => none
      | some pg =>
          match fetch_and_filter_hits b rs with
          | none => none
          | some rest => some (pg ++ rest) := rfl

/-- Claim C1 (counterexample): a well-formed two-page stream — the first
page carries a continuation token, the second and last does not — in which
both hits pass the batch filter for batch 42; `fetch_and_filter_hits`
returns only the first page's hit, not the concatenation over both pages
that the claim predicts. -/
theorem fetch_hits_last_page_lost :
    paginatedHits pages42 = true ∧ batch_id_match hitB 42 = some true ∧
      fetch_and_filter_hits 42 pages42 = some [hitA] ∧
      (some [hitA] : Option (List Hit)) ≠ some [hitA, hitB] := by
  refine ⟨by decide, by decide, by decide, by decide⟩

/-- Claim C1 (amended): over a paginated stream whose every response except
the final one carries a continuation token, `fetch_and_filter_hits` returns
the concatenation, in page order, of the filtered-in hits of the
token-carrying pages; the final tokenless response's hits are discarded. -/
theorem fetch_hits_concat_token_pages (b : Int) (ps : List HitsResp)
    (lastPage : HitsResp) (hps : ∀ p ∈ ps, p.nextToken.isSome = true)
    (hlast : lastPage.nextToken = none) :
    fetch_and_filter_hits b (ps ++ [lastPage]) = filteredPages b ps :=
  fetch_hits_upto_break b ps hps lastPage hlast []

/-- Witness for the amended claim C1 at a concrete two-page stream. -/
theorem fetch_hits_concat_token_pages_witness :
    fetch_and_filter_hits 42 ([⟨[hitA], some "tok1"⟩] ++ [⟨[hitB], none⟩]) =
      filteredPages 42 [⟨[hitA], some "tok1"⟩] :=
  fetch_hits_concat_token_pages 42 [⟨[hitA], some "tok1"⟩] ⟨[hitB], none⟩
    (by decide) rfl

/-- Claim C2 (counterexample): a well-formed two-page credential-listing
stream; `fetch_workers_with_qualification` returns only the first page's
worker, not the workers of every page as the claim predicts. -/
theorem fetch_workers_last_page_lost :
    paginatedQuals qpagesW = true ∧
      fetch_workers_with_qualification qpagesW = ["W1"] ∧
      (["W1"] : List String) ≠ ["W1", "W2"] := by
  refine ⟨by decide, by decide, by decide⟩

/-- Claim C2 (amended): over a paginated stream whose every response except
the final one carries a continuation token, `fetch_workers_with_qualification`
returns the worker ids of the token-carrying pages, concatenated in fetch
order; the final tokenless response's records are discarded. -/
theorem fetch_workers_concat_token_pages (ps : List QualResp)
    (lastPage : QualResp) (hps : ∀ p ∈ ps, p.nextToken.isSome = true)
    (hlast : lastPage.nextToken = none) :
    fetch_workers_with_qualification (ps ++ [lastPage]) = workersOfPages ps :=
  fetch_workers_upto_break ps hps lastPage hlast []

/-- Witness for the amended claim C2 at a concrete two-page stream. -/
theorem fetch_workers_concat_token_pages_witness :
    fetch_workers_with_qualification
        ([⟨[qualW1], some "tok1"⟩] ++ [⟨[qualW2], none⟩]) =
      workersOfPages [⟨[qualW1], some "tok1"⟩] :=
  fetch_workers_concat_token_pages [⟨[qualW1], some "tok1"⟩]
    ⟨[qualW2], none⟩ (by decide) rfl

/-- Claim C3: a response carrying no continuation token has its records
discarded by both fetchers: whatever hits (resp. worker records) it and any
later response contain, the result is determined by the earlier
token-carrying pages alone — in particular, with no earlier pages, the
result is empty. -/
theorem no_token_page_discarded (b : Int) (ps : List HitsResp)
    (hps : ∀ p ∈ ps, p.nextToken.isSome = true) (page : List Hit)
    (rest : List HitsResp) (qs : List QualResp)
    (hqs : ∀ q ∈ qs, q.nextToken.isSome = true) (ws : List Qualification)
    (qrest : List QualResp) :
    fetch_and_filter_hits b (ps ++ ⟨page, none⟩ :: rest) =
        filteredPages b ps ∧
      fetch_workers_with_qualification (qs ++ ⟨ws, none⟩ :: qrest) =
        workersOfPages qs :=
  ⟨fetch_hits_upto_break b ps hps ⟨page, none⟩ rfl rest,
    fetch_workers_upto_break qs hqs ⟨ws, none⟩ rfl qrest⟩

/-- Witness for claim C3: a first response without a token yields the empty
result for both fetchers, despite the records it carries. -/
theorem no_token_page_discarded_witness :
    fetch_and_filter_hits 42 [⟨[hitA], none⟩] = some [] ∧
      fetch_workers_with_qualification [⟨[qualW1], none⟩] = [] :=
  no_token_page_discarded 42 [] (by decide) [hitA] [] [] (by decide)
    [qualW1] []

/-- Claim C4: with `max_hits = 3`, one in-batch task, assignments from
workers A, A, B, A, C, B and an empty initial blacklist, the tally phase
issues exactly one grant call, for worker A; and in general one assignment
step issues a grant exactly when the worker's incremented count is at least
`max_hits` and the worker is not in the locally-extended blacklist. -/
theorem tally_scenario_grant_condition :
    batch_id_match hitA 42 = some true ∧
      (runTally 3 [hitA] (fun _ => ["A", "A", "B", "A", "C", "B"]) []).grants
        = ["A"] ∧
      ∀ (m : Int) (st : CycleState) (w : String),
        (stepAssignment m st w).grants =
          if (st.counter w + 1 : Int) ≥ m ∧ w ∉ st.blacklisted
          then st.grants ++ [w] else st.grants := by
  refine ⟨by decide, by decide, ?_⟩
  intro m st w
  unfold stepAssignment
  split
  · rfl
  · rfl

/-- Claim C5: within one cycle the grant operation is called at most once
per worker — the grant list of a tally phase has no duplicates — and a
worker already blacklisted at cycle start is never granted in that cycle. -/
theorem grant_at_most_once_per_cycle (m : Int) (hits : List Hit)
    (aof : Hit → List String) (bl0 : List String) :
    (runTally m hits aof bl0).grants.Nodup ∧
      ∀ w ∈ bl0, w ∉ (runTally m hits aof bl0).grants :=
  ⟨(tallyInv_runTally m hits aof bl0).1,
    (tallyInv_runTally m hits aof bl0).2.2.2⟩

/-- Witness for claim C5: worker B, blacklisted at cycle start, is not
granted even though its count reaches the threshold. -/
theorem grant_at_most_once_per_cycle_witness :
    (runTally 2 [hitA] (fun _ => ["A", "A", "B", "A", "C", "B"])
        ["B"]).grants.Nodup ∧
      "B" ∉ (runTally 2 [hitA] (fun _ => ["A", "A", "B", "A", "C", "B"])
        ["B"]).grants :=
  ⟨(grant_at_most_once_per_cycle 2 [hitA]
      (fun _ => ["A", "A", "B", "A", "C", "B"]) ["B"]).1,
    (grant_at_most_once_per_cycle 2 [hitA]
      (fun _ => ["A", "A", "B", "A", "C", "B"]) ["B"]).2 "B" (by decide)⟩

/-- Claim C6 (counterexample): the annotation `"BatchId:421"` contains the
token `"BatchId:42"` as a substring (shown by the explicit decomposition),
yet `batch_id_match` with target 42 returns `false` — the greedy digit run
parses as 421. -/
theorem batch_id_contains_insufficient :
    ("BatchId:421" : String).data = "BatchId:42".data ++ ['1'] ∧
      batch_id_match ⟨"T3", "BatchId:421"⟩ 42 = some false ∧
      batch_id_match ⟨"T3", "BatchId:421"⟩ 421 = some true := by
  refine ⟨by decide, by decide, by decide⟩

/-- Claim C6 (amended): when the leftmost match of `BatchId:<digits>` in the
annotation (with a maximal digit run) has digit value N, `batch_id_match`
returns `true` for target N and `false` for every other integer target. -/
theorem batch_id_match_leftmost (hit : Hit) (ds : List Char)
    (h : searchBatchId hit.requesterAnn.data = some ds) :
    batch_id_match hit (digitsToNat ds : Int) = some true ∧
      ∀ M : Int, M ≠ (digitsToNat ds : Int) →
        batch_id_match hit M = some false := by
  unfold batch_id_match
  rw [h]
  refine ⟨by simp, ?_⟩
  intro M hM
  simp only [Option.some.injEq, decide_eq_false_iff_not]
  exact fun he => hM he.symm

/-- Witness for the amended claim C6 at a concrete annotation. -/
theorem batch_id_match_leftmost_witness :
    batch_id_match hitA 42 = some true ∧
      batch_id_match hitA 7 = some false := by
  have h := batch_id_match_leftmost hitA ['4', '2'] (by decide)
  exact ⟨h.1, h.2 7 (by decide)⟩

/-- Claim C7: for a hit whose annotation has no `BatchId:<digits>` match,
`batch_id_match` fails rather than returning `false`, and when such a hit
sits on an accumulated (token-carrying) page, the failure propagates out of
`fetch_and_filter_hits` and out of the whole cycle. -/
theorem missing_pattern_fatal (hit : Hit) (b : Int)
    (h : searchBatchId hit.requesterAnn.data = none) :
    batch_id_match hit b = none ∧
      ∀ (page : List Hit) (tok : String) (rest : List HitsResp),
        hit ∈ page →
          fetch_and_filter_hits b (⟨page, some tok⟩ :: rest) = none ∧
            ∀ (m : Int) (qp : List QualResp) (aof : Hit → List String),
              runCycle m b (⟨page, some tok⟩ :: rest) qp aof = none := by
  have hbm : batch_id_match hit b = none := by
    unfold batch_id_match
    rw [h]
  refine ⟨hbm, ?_⟩
  intro page tok rest hmem
  have hfb : filterBatch b page = none :=
    filterBatch_eq_none b hit page hmem hbm
  have hfetch : fetch_and_filter_hits b (⟨page, some tok⟩ :: rest) = none := by
    rw [fetch_cons_some_token, hfb]
  refine ⟨hfetch, ?_⟩
  intro m qp aof
  unfold runCycle
  rw [hfetch]

/-- Witness for claim C7 at a concrete annotation with no batch token. -/
theorem missing_pattern_fatal_witness :
    batch_id_match hitBad 7 = none ∧
      fetch_and_filter_hits 7 [⟨[hitBad], some "tok1"⟩] = none ∧
      runCycle 3 7 [⟨[hitBad], some "tok1"⟩] [] (fun _ => []) = none := by
  have h := missing_pattern_fatal hitBad 7 (by decide)
  exact ⟨h.1, (h.2 [hitBad] "tok1" [] (by decide)).1,
    (h.2 [hitBad] "tok1" [] (by decide)).2 3 [] (fun _ => [])⟩

/-- Claim C8: when the fetched in-batch task list is empty, the cycle
completes without failure, the empty-batch warning fires, and no grant call
is issued — the loop then proceeds to sleep and start the next cycle. -/
theorem empty_batch_warns (m b : Int) (hp : List HitsResp)
    (qp : List QualResp) (aof : Hit → List String)
    (h : fetch_and_filter_hits b hp = some []) :
    runCycle m b hp qp aof = some ⟨true, []⟩ := by
  unfold runCycle
  rw [h]
  rfl

/-- Witness for claim C8: a cycle whose only listing response carries hits
but no token, so the filtered task list is empty. -/
theorem empty_batch_warns_witness :
    runCycle 3 42 [⟨[hitB], none⟩] qpagesW (fun _ => ["A"]) =
      some ⟨true, []⟩ :=
  empty_batch_warns 3 42 [⟨[hitB], none⟩] qpagesW (fun _ => ["A"])
    (by decide)

/-- Claim C9: `list_disqualified_workers` is read-only on the marketplace
state, so two consecutive calls with no intervening grant return the same
worker list (hence the same set). -/
theorem list_disqualified_idempotent (s : MarketState) :
    (list_disqualified_workers s).2 = s ∧
      (list_disqualified_workers ((list_disqualified_workers s).2)).1 =
        (list_disqualified_workers s).1 :=
  ⟨rfl, rfl⟩

/-- Claim C10: the constructor stores `max_hits` without validation, and for
any `max_hits ≤ 1` the first assignment observed for a worker outside the
locally-extended blacklist immediately issues a grant for that worker. -/
theorem unvalidated_threshold_first_grant (m b : Int) (ak sk url qid : String)
    (slp : Int) :
    (MTWorkerMonitor.init m b ak sk url qid slp).max_hits = m ∧
      (m ≤ 1 → ∀ (st : CycleState) (w : String),
        st.counter w = 0 → w ∉ st.blacklisted →
          (stepAssignment m st w).grants = st.grants ++ [w]) := by
  refine ⟨rfl, ?_⟩
  intro hm st w hcnt hbl
  have hcond : (st.counter w + 1 : Int) ≥ m ∧ w ∉ st.blacklisted := by
    refine ⟨?_, hbl⟩
    rw [hcnt]
    simpa using hm
  unfold stepAssignment
  rw [if_pos hcond]

/-- Witness for claim C10 at `max_hits = 0`. -/
theorem unvalidated_threshold_first_grant_witness :
    (MTWorkerMonitor.init 0 42 "k" "s" "u" "q" 10).max_hits = 0 ∧
      (stepAssignment 0 (initState []) "A").grants =
        (initState []).grants ++ ["A"] := by
  have h := unvalidated_threshold_first_grant 0 42 "k" "s" "u" "q" 10
  exact ⟨h.1, h.2 (by decide) (initState []) "A" rfl (by decide)⟩

end AMTMonitor
